import Mathlib

/-!
A shallow embedding of the grouping-and-ordering core of `src/scripts/ctg.js`
(the `Ctg` class: `sortCombatants`, `groups`, and the group-skipping turn
navigation of `groupSkipping`), together with proofs about it.

JavaScript number values stored on combatants are modelled as `Int` (turn
indices and the number literals involved here are integral); the numeric
coercions inside the comparator are modelled exactly as rationals extended
with infinities and NaN (`JSNum`), with string-to-number conversion
implementing the ECMAScript StringNumericLiteral grammar. JavaScript strings
are modelled as `String` compared by code-point order, which agrees with
JavaScript's UTF-16 code-unit order on the ASCII data involved here; the
host's locale-dependent `localeCompare` is abstracted as a parameter where
its exact values matter.
-/

namespace CtgSpec

/-- A JavaScript value as it can come out of grouping-path resolution.
`obj` keeps only the `id` property, the single property the comparator reads
from object values. Modelled from the spec: `recursiveGetPropertyAsString`
(from helpers.js, which is not among the sources) resolves a dotted path on a
combatant to a mixed-type value; each combatant carries its resolved value
directly (`Combatant.val`). -/
inductive JSVal where
  | undef : JSVal
  | bool : Bool → JSVal
  | num : Int → JSVal
  | str : String → JSVal
  | arr : List JSVal → JSVal
  | obj : Option String → JSVal

/-- Code-point lexicographic order on character lists: the order JavaScript
uses for `<` and `>` on strings. -/
def charListLt : List Char → List Char → Bool
  | [], [] => false
  | [], _ :: _ => true
  | _ :: _, [] => false
  | a :: as, b :: bs => if a = b then charListLt as bs else decide (a < b)

/-- JavaScript string comparison `x < y`. -/
def jsStrLt (x y : String) : Bool := charListLt x.toList y.toList

/-- JavaScript string comparison `x ≤ y` (used by the model of the default
`Array.prototype.sort`, which orders by string form). -/
def jsStrLe (x y : String) : Bool := !jsStrLt y x

/-- Decimal value of a list of digit characters. -/
def digitsToNat (l : List Char) : Nat := l.foldl (fun acc c => acc * 10 + (c.toNat - 48)) 0

/-- A JavaScript number as the comparator's numeric branch can see it: an
exact rational, an infinity, or NaN. Rationals model the double values
exactly on the magnitudes involved here; two equal rationals always coerce
to the same double, so every tie asserted below is a tie of the program. -/
inductive JSNum where
  | val : ℚ → JSNum
  | posInf : JSNum
  | negInf : JSNum
  | nan : JSNum
deriving DecidableEq

/-- ASCII whitespace accepted by the StringNumericLiteral grammar (exotic
Unicode space characters are outside the embedding). -/
def isStrWhiteSpace (c : Char) : Bool :=
  c = ' ' || c = '\t' || c = '\n' || c = '\r' || c = '\x0b' || c = '\x0c'

/-- Leading digits and the remainder of a character list. -/
def spanDigits (l : List Char) : List Char × List Char :=
  (l.takeWhile Char.isDigit, l.dropWhile Char.isDigit)

/-- An ExponentPart consuming the whole remainder: empty means exponent 0,
otherwise `e`/`E`, an optional sign, and at least one digit. -/
def parseExponentTail : List Char → Option Int
  | [] => some 0
  | c :: rest =>
    if c = 'e' ∨ c = 'E' then
      match rest with
      | '+' :: ds => if ds ≠ [] ∧ ds.all Char.isDigit then some (digitsToNat ds : Int) else none
      | '-' :: ds => if ds ≠ [] ∧ ds.all Char.isDigit then some (-(digitsToNat ds : Int)) else none
      | ds => if ds ≠ [] ∧ ds.all Char.isDigit then some (digitsToNat ds : Int) else none
    else none

/-- Ten to an integer power, as an exact rational. -/
def pow10 (e : Int) : ℚ :=
  if 0 ≤ e then ((10 : ℚ) ^ e.toNat) else ((10 : ℚ) ^ (-e).toNat)⁻¹

/-- The exact rational of integer digits, fraction digits and an exponent. -/
def decimalValue (intDs fracDs : List Char) (e : Int) : ℚ :=
  ((digitsToNat intDs : ℚ) + (digitsToNat fracDs : ℚ) / ((10 : ℚ) ^ fracDs.length)) * pow10 e

/-- StrUnsignedDecimalLiteral: the literal `Infinity` (`some none`), or
decimal digits with an optional fraction and exponent (`some (some q)`);
`none` is a parse failure. -/
def parseUnsignedDecimalLiteral (l : List Char) : Option (Option ℚ) :=
  if l = String.toList "Infinity" then some none
  else
    match spanDigits l with
    | ([], '.' :: rest2) =>
      match spanDigits rest2 with
      | ([], _) => none
      | (frac, rest3) =>
        match parseExponentTail rest3 with
        | some e => some (some (decimalValue [] frac e))
        | none => none
    | ([], _) => none
    | (ds, '.' :: rest2) =>
      match spanDigits rest2 with
      | (frac, rest3) =>
        match parseExponentTail rest3 with
        | some e => some (some (decimalValue ds frac e))
        | none => none
    | (ds, rest) =>
      match parseExponentTail rest with
      | some e => some (some (decimalValue ds [] e))
      | none => none

/-- StrDecimalLiteral: an optional sign before an unsigned decimal literal
or `Infinity`. -/
def parseSignedDec (l : List Char) : JSNum :=
  match l with
  | '+' :: rest =>
    match parseUnsignedDecimalLiteral rest with
    | some (some q) => .val q
    | some none => .posInf
    | none => .nan
  | '-' :: rest =>
    match parseUnsignedDecimalLiteral rest with
    | some (some q) => .val (-q)
    | some none => .negInf
    | none => .nan
  | _ =>
    match parseUnsignedDecimalLiteral l with
    | some (some q) => .val q
    | some none => .posInf
    | none => .nan

/-- Whether a character is a hexadecimal digit. -/
def isHexDigit (c : Char) : Bool :=
  c.isDigit || ('a' ≤ c && c ≤ 'f') || ('A' ≤ c && c ≤ 'F')

/-- Value of a hexadecimal digit. -/
def hexDigitVal (c : Char) : Nat :=
  if c.isDigit then c.toNat - 48
  else if 'a' ≤ c ∧ c ≤ 'f' then c.toNat - 87
  else c.toNat - 55

/-- Digits interpreted in a base. -/
def baseVal (b : Nat) (l : List Char) : Nat := l.foldl (fun a c => a * b + hexDigitVal c) 0

/-- StrNumericLiteral: an unsigned `0x`/`0o`/`0b` integer literal, or a
signed decimal literal. -/
def parseStrNumericLiteral (l : List Char) : JSNum :=
  match l with
  | '0' :: x :: rest =>
    if (x = 'x' ∨ x = 'X') ∧ rest ≠ [] ∧ rest.all isHexDigit then
      .val (baseVal 16 rest : ℚ)
    else if (x = 'o' ∨ x = 'O') ∧ rest ≠ [] ∧ rest.all (fun c => '0' ≤ c ∧ c ≤ '7') then
      .val (baseVal 8 rest : ℚ)
    else if (x = 'b' ∨ x = 'B') ∧ rest ≠ [] ∧ rest.all (fun c => c = '0' ∨ c = '1') then
      .val (baseVal 2 rest : ℚ)
    else parseSignedDec ('0' :: x :: rest)
  | _ => parseSignedDec l

/-- ECMAScript ToNumber on a string (the StringNumericLiteral grammar, with
ASCII whitespace): trim whitespace on both ends, an empty remainder is 0,
otherwise parse the numeric literal; failures are NaN. -/
def jsStringToNumber (s : String) : JSNum :=
  match (s.toList.dropWhile isStrWhiteSpace).reverse.dropWhile isStrWhiteSpace |>.reverse with
  | [] => .val 0
  | l => parseStrNumericLiteral l

/-- Foundry's `Number.isNumeric` on a string: the empty string is excluded
explicitly, every other string is numeric exactly when its ToNumber value is
not NaN. -/
def isNumericString (s : String) : Bool :=
  !(s == "") && decide (jsStringToNumber s ≠ JSNum.nan)

/-- JavaScript `typeof v === "boolean"`. -/
def JSVal.isBoolean : JSVal → Bool
  | .bool _ => true
  | _ => false

/-- JavaScript `typeof v === "object"` (true for arrays and plain objects). -/
def JSVal.isObjectType : JSVal → Bool
  | .arr _ => true
  | .obj _ => true
  | _ => false

/-- JavaScript `typeof v === "string"`. -/
def JSVal.isStringType : JSVal → Bool
  | .str _ => true
  | _ => false

/-- The underlying boolean of a boolean value (only read under `isBoolean`). -/
def JSVal.boolValue : JSVal → Bool
  | .bool b => b
  | _ => false

/-- The underlying string of a string value (only read under `isStringType`). -/
def JSVal.stringValue : JSVal → String
  | .str s => s
  | _ => ""

/-- Foundry's `Number.isNumeric`: true for numbers and booleans, true for
numeric-like strings, false for `undefined`, arrays and objects. -/
def jsIsNumeric : JSVal → Bool
  | .num _ => true
  | .bool _ => true
  | .str s => isNumericString s
  | _ => false

/-- Numeric coercion `+v`. The comparator only applies it to values
satisfying `jsIsNumeric`, so the array and object cases (0 and NaN for the
empty array, NaN otherwise) are never reached and NaN stands in for them. -/
def jsToNumber : JSVal → JSNum
  | .num n => .val (n : ℚ)
  | .bool b => .val (if b then 1 else 0)
  | .str s => jsStringToNumber s
  | _ => .nan

/-- Exact subtraction of rationals by the cross-multiplication formula (the
library subtraction is definitionally opaque; `ratSub_eq_sub` shows this is
the same function). -/
def ratSub (a b : ℚ) : ℚ :=
  mkRat (a.num * (b.den : Int) - b.num * (a.den : Int)) (a.den * b.den)

/-- JavaScript subtraction on numbers extended with infinities and NaN. -/
def jsNumSub : JSNum → JSNum → JSNum
  | .val a, .val b => .val (ratSub a b)
  | .val _, .posInf => .negInf
  | .val _, .negInf => .posInf
  | .posInf, .val _ => .posInf
  | .negInf, .val _ => .negInf
  | .posInf, .negInf => .posInf
  | .negInf, .posInf => .negInf
  | .posInf, .posInf => .nan
  | .negInf, .negInf => .nan
  | .nan, _ => .nan
  | _, .nan => .nan

/-- JavaScript `x !== 0` on a number: NaN and the infinities are not 0. -/
def jsNumNeZero : JSNum → Bool
  | .val q => decide (q ≠ 0)
  | _ => true

/-- JavaScript truthiness of a number: 0 and NaN are falsy. -/
def jsNumTruthy : JSNum → Bool
  | .val q => decide (q ≠ 0)
  | .nan => false
  | _ => true

/-- Length of the longest run of consecutive ASCII alphanumeric characters. -/
def maxAlnumRun (s : String) : Nat :=
  (s.toList.foldl
    (fun p c => if c.isAlphanum then (max p.1 (p.2 + 1), p.2 + 1) else (p.1, 0))
    ((0 : Nat), (0 : Nat))).1

/-- The unanchored test `/[A-Za-z0-9]{16}/.test(s)`: the string contains
sixteen consecutive alphanumeric characters. -/
def matchesIdPattern (s : String) : Bool := decide (16 ≤ maxAlnumRun s)

/-- Model of `String.prototype.localeCompare` with code-point collation:
-1, 0 or 1 as the receiver is before, equal to or after the argument. -/
def localeCompare (x y : String) : Int :=
  if jsStrLt x y then -1 else if jsStrLt y x then 1 else 0

/-- JavaScript `x > y` on two possibly-undefined strings: any comparison
against `undefined` is a NaN comparison and is false. -/
def jsGtOptStr : Option String → Option String → Bool
  | some a, some b => jsStrLt b a
  | _, _ => false

/-- JavaScript `>` on two possibly-null initiative values: `null` coerces
to 0 in a relational comparison. -/
def jsGtInitiative (a b : Option Int) : Bool := decide (b.getD 0 < a.getD 0)

/-- `Array.isArray(v) ? v[0] : v`; indexing an empty array gives `undefined`. -/
def firstIfArray : JSVal → JSVal
  | .arr l => l.headD JSVal.undef
  | v => v

/-- Optional-chained `v?.id`: only plain objects carry an `id` property. -/
def idOfVal : JSVal → Option String
  | .obj i => i
  | _ => none

/-- A combatant as the embedded core reads it. `val` is the value the active
grouping path resolves to on this combatant. -/
structure Combatant where
  id : String
  initiative : Option Int
  visible : Bool
  hidden : Bool
  hasPlayerOwner : Bool
  val : JSVal

/-- The module settings the embedded core reads. -/
structure Settings where
  noGroupHidden : Bool
  noGroupPCs : Bool
  sortEnabled : Bool

/-- `turns.findIndex(c => c.id === cid)`: first index or -1. Combatant object
identity is modelled by the stable id. -/
def jsFindIndexById (turns : List Combatant) (cid : String) : Int :=
  match turns.findIdx? (fun c => c.id == cid) with
  | some i => (i : Int)
  | none => -1

/-- `Ctg.sortCombatants` with the sort-by-path setting enabled
(src/scripts/ctg.js lines 204-233), generalized over the host's
locale-comparison function: `lc x y` models `x.localeCompare(y)`, whose
exact return values are locale- and host-dependent. The numeric branch
mirrors `if (ci !== 0) return ci ? 1 : -1;` exactly: NaN (possible only
for an Infinity-minus-Infinity pair) passes the `!== 0` test but is falsy. -/
def sortCombatantsWith (lc : String → String → Int) (a b : Combatant) : Int :=
  let ia := a.val
  let ib := b.val
  if ia.isBoolean && ib.isBoolean then
    if ia.boolValue then 1 else -1
  else if jsIsNumeric ia && jsIsNumeric ib then
    let ci := jsNumSub (jsToNumber ib) (jsToNumber ia)
    if jsNumNeZero ci then
      if jsNumTruthy ci then 1 else -1
    else if jsStrLt b.id a.id then 1 else -1
  else if ia.isObjectType && ib.isObjectType then
    if jsGtOptStr (idOfVal (firstIfArray ia)) (idOfVal (firstIfArray ib)) then 1 else -1
  else if ia.isStringType && ib.isStringType then
    if matchesIdPattern ia.stringValue && matchesIdPattern ib.stringValue then
      if jsGtInitiative a.initiative b.initiative then 1 else -1
    else lc ib.stringValue ia.stringValue
  else if jsStrLt b.id a.id then 1 else -1

/-- The enabled comparator at the embedded code-point collation. -/
def sortCombatantsEnabled (a b : Combatant) : Int :=
  sortCombatantsWith localeCompare a b

/-- `Ctg.sortCombatants` (lines 202-237): with sorting disabled it compares
positions in the current turn order. -/
def sortCombatants (s : Settings) (turns : List Combatant) (a b : Combatant) : Int :=
  if s.sortEnabled then sortCombatantsEnabled a b
  else if jsFindIndexById turns b.id < jsFindIndexById turns a.id then 1 else -1

/-- `turns.indexOf` lifted to a possibly-undefined combatant: -1 for
`undefined`. -/
def jsTurnIndexOpt (turns : List Combatant) : Option Combatant → Int
  | some c => jsFindIndexById turns c.id
  | none => -1

/-- `Ctg.sortCombatants` on possibly-undefined arguments, as it is applied to
group heads (`group[0]` of an empty group is `undefined`). With sorting
enabled every typed branch guard fails on `undefined` and the id fallback
compares against `undefined`, giving -1; with sorting disabled
`indexOf(undefined)` is -1. -/
def sortCombatantsOpt (s : Settings) (turns : List Combatant) : Option Combatant → Option Combatant → Int
  | some a, some b => sortCombatants s turns a b
  | oa, ob =>
    if s.sortEnabled then -1
    else if jsTurnIndexOpt turns ob < jsTurnIndexOpt turns oa then 1 else -1

/-- The comparator `(a, b) => Ctg.sortCombatants(a[0], b[0])` used to sort
the list of groups. -/
def sortGroupHeads (s : Settings) (turns : List Combatant) (ga gb : List Combatant) : Int :=
  sortCombatantsOpt s turns ga.head? gb.head?

/-- One step of `accumulator[key] = [...accumulator[key] || [], current]`
over a JavaScript object modelled as an association list kept in
property-insertion order. -/
def updateAList (acc : List (String × List Combatant)) (k : String) (c : Combatant) :
    List (String × List Combatant) :=
  match acc with
  | [] => [(k, [c])]
  | (k0, l) :: rest =>
    if k0 == k then (k0, l ++ [c]) :: rest else (k0, l) :: updateAList rest k c

/-- Decimal string of a natural number. -/
def jsNatString (n : Nat) : String := String.mk (Nat.toDigits 10 n)

/-- `String(n)` for an integral JavaScript number. -/
def jsIntString : Int → String
  | .ofNat n => jsNatString n
  | .negSucc n => String.mk ('-' :: Nat.toDigits 10 (n + 1))

mutual
/-- `String(v)`: the string a value is coerced to when used as a property
key of the bucket object. -/
def jsKeyString : JSVal → String
  | .undef => "undefined"
  | .bool b => if b then "true" else "false"
  | .num n => jsIntString n
  | .str s => s
  | .arr l => String.intercalate "," (jsKeyStrings l)
  | .obj _ => "[object Object]"

/-- Elements of an array joined for `String(v)`; `Array.prototype.join`
renders `undefined` as the empty string. -/
def jsKeyStrings : List JSVal → List String
  | [] => []
  | .undef :: rest => "" :: jsKeyStrings rest
  | v :: rest => jsKeyString v :: jsKeyStrings rest
end

/-- A canonical array-index property key: the canonical decimal form of an
integer below 2^32 - 1. `Object.values` enumerates such keys first, in
ascending numeric order. -/
def isArrayIndexKey (s : String) : Bool :=
  match s.toList with
  | [] => false
  | l => l.all Char.isDigit && (s == "0" || !(l.head? == some '0'))
      && decide (digitsToNat l < 4294967295)

/-- `Object.values` of the accumulated bucket object: array-index keys first
in ascending numeric order, then the remaining keys in insertion order. -/
def objectValues (al : List (String × List Combatant)) : List (List Combatant) :=
  ((al.filter fun kv => isArrayIndexKey kv.1).insertionSort
      (fun x y => digitsToNat x.1.toList ≤ digitsToNat y.1.toList)
    ++ al.filter fun kv => !isArrayIndexKey kv.1).map Prod.snd

/-- The grouping filter of `Ctg.groups` (lines 179-182): a combatant is put
into a bucket exactly when this holds. -/
def includedInGrouping (s : Settings) (c : Combatant) : Bool :=
  c.visible && !(s.noGroupHidden && c.hidden) && !(s.noGroupPCs && c.hasPlayerOwner)

/-- The bucket-building reduce of `Ctg.groups` (lines 177-186). -/
def pathBuckets (s : Settings) (turns : List Combatant) : List (String × List Combatant) :=
  turns.foldl
    (fun acc cur =>
      if includedInGrouping s cur then updateAList acc (jsKeyString cur.val) cur else acc)
    []

/-- Path-based grouping: the bucket object's values. -/
def pathGroups (s : Settings) (turns : List Combatant) : List (List Combatant) :=
  objectValues (pathBuckets s turns)

/-- The external Mob Attack Tool state the mob mode reads: whether the module
is active, the `selectedTokenIds` of each stored mob, and the token-id to
combatant lookup of the scene. -/
structure MatEnv where
  active : Bool
  mobs : List (List String)
  tokenCombatants : List (String × Combatant)

/-- `canvas.scene?.tokens.get(id)?.combatant`. -/
def lookupToken (mat : MatEnv) (tid : String) : Option Combatant :=
  (mat.tokenCombatants.find? fun p => p.1 == tid).map Prod.snd

/-- The duplicate-membership filter of the mob branch (lines 163-170): an id
already seen in an earlier mob, or earlier in the same mob, is dropped, and
every id encountered is recorded as seen. -/
def dedupMobs (mobs : List (List String)) : List (List String) :=
  (mobs.foldl
    (fun (st : List (List String) × List String) mob =>
      let r := mob.foldl
        (fun (q : List String × List String) tid =>
          (q.1 ++ [tid], if q.1.contains tid then q.2 else q.2 ++ [tid]))
        (st.2, [])
      (st.1 ++ [r.2], r.1))
    ([], [])).1

/-- The mob branch of `Ctg.groups` (lines 157-171): deduplicated token ids,
mapped to combatants, sorted by turn position, tokens without a combatant
filtered out. `Array.prototype.sort` is modelled as a stable insertion sort;
the JavaScript sort also only guarantees a permutation, and every property
proved below is permutation-invariant. -/
def mobGroups (mat : MatEnv) (turns : List Combatant) : List (List Combatant) :=
  (dedupMobs mat.mobs).map fun mob =>
    ((mob.map (lookupToken mat)).insertionSort
        (fun oa ob => jsTurnIndexOpt turns oa ≤ jsTurnIndexOpt turns ob)).filterMap
      fun x => x

/-- The typed failure of `Ctg.groups` on an unknown mode: the source notifies
the user and returns without producing groups (lines 150-154). -/
inductive GroupsError where
  | invalidMode : GroupsError

/-- `Ctg.groups` (lines 146-195): invalid-mode check, mob or path-based
bucket construction, then each group is sorted with `sortCombatants` and the
list of groups is sorted by group heads. -/
def ctgGroups (modes : List (String × String)) (s : Settings) (mat : MatEnv)
    (turns : List Combatant) (mode : String) : Except GroupsError (List (List Combatant)) :=
  if !(modes.map Prod.fst).contains mode then .error .invalidMode
  else
    let gs :=
      if mode == "mob" && mat.active then mobGroups mat turns
      else pathGroups s turns
    let gs2 := gs.map (List.insertionSort (fun a b => sortCombatants s turns a b ≤ 0))
    let gs3 := gs2.insertionSort (fun ga gb => sortGroupHeads s turns ga gb ≤ 0)
    .ok gs3

/-- The default `Array.prototype.sort()` on numbers, which orders elements by
their string form. -/
def jsDefaultSortInts (l : List Int) : List Int :=
  l.insertionSort (fun a b => jsStrLe (jsIntString a) (jsIntString b) = true)

/-- Line 439: `groups.map(group => document.turns.findIndex(c => c.id ===
group[0].id)).sort()`. An empty group would make `group[0].id` throw in the
source; -1 stands in for that unreachable case (the claims evaluate this on
non-empty groups only). -/
def firstTurnsCalc (turns : List Combatant) (groups : List (List Combatant)) : List Int :=
  jsDefaultSortInts (groups.map fun g =>
    match g with
    | [] => -1
    | c :: _ => jsFindIndexById turns c.id)

/-- Lines 441-449 of `groupSkipping`: locate the current turn among the
group-first turns, step by the direction, and fall back to the first or last
entry when the lookup or the step misses (`undefined + direction` is NaN and
indexing by it misses). A `none` result models `undefined`, possible only
for an empty list. -/
def nextGroupTurn (ft : List Int) (turn : Int) (direction : Int) : Option Int :=
  let fallback := if direction == 1 then ft.head? else ft.getLast?
  match ft.indexOf? turn with
  | some i =>
    match (if 0 ≤ (i : Int) + direction then ft[((i : Int) + direction).toNat]? else none) with
    | some v => some v
    | none => fallback
  | none => fallback

/-! ### Helper lemmas about the embedded string order -/

/-- C1: the claim says the numeric branch orders descending (higher value
first) with an ascending-id tie break. The source line
`if (ci !== 0) return ci ? 1 : -1;` returns 1 whenever the two values
differ, regardless of sign, so with resolved values 20 and 15 the comparator
returns 1 — "this combatant after the other" — in both argument orders and
the higher value never precedes. The tie-break half of the claim does hold:
with equal values and ids "B" and "A", `compare` puts "B" after "A" and "A"
before "B" (ascending ids). -/
theorem c1_numeric_descending_fails :
    sortCombatantsEnabled ⟨"A", none, true, false, false, .num 20⟩
      ⟨"B", none, true, false, false, .num 15⟩ = 1
    ∧ sortCombatantsEnabled ⟨"B", none, true, false, false, .num 15⟩
      ⟨"A", none, true, false, false, .num 20⟩ = 1
    ∧ sortCombatantsEnabled ⟨"B", none, true, false, false, .num 15⟩
      ⟨"A", none, true, false, false, .num 15⟩ = 1
    ∧ sortCombatantsEnabled ⟨"A", none, true, false, false, .num 15⟩
      ⟨"B", none, true, false, false, .num 15⟩ = -1 := by
  refine ⟨by decide, by decide, by decide, by decide⟩

/-- C4: the claim says `firstTurns` is sorted in ascending numeric order even
with indices 10 or greater. The source uses the default `Array.sort()`,
which orders by string form: with group-first members at turn indices 9 and
10 the computed list is [10, 9] ("10" sorts before "9" lexically), not the
numerically ascending [9, 10]. -/
theorem c4_firstTurns_lexicographic :
    firstTurnsCalc
      ((List.range 11).map fun i =>
        (⟨jsNatString i, none, true, false, false, JSVal.undef⟩ : Combatant))
      [[⟨"9", none, true, false, false, JSVal.undef⟩],
       [⟨"10", none, true, false, false, JSVal.undef⟩]] = [10, 9] := by
  decide

/-- C8: the claim says the comparator returns only -1 or 1 and that every
unmatched combination reaches the id fallback. In the plain-string branch
the source returns `ib.localeCompare(ia)` directly, which is 0 for two equal
non-identifier strings — contradicting the claim and the source's own
`@return {1 | -1}` annotation. -/
theorem c8_zero_for_equal_strings :
    sortCombatantsEnabled ⟨"A", none, true, false, false, .str "abc"⟩
      ⟨"B", none, true, false, false, .str "abc"⟩ = 0 := by
  decide

/-- C5: when the current turn is the first turn of the last group and the
direction is +1, the navigator wraps to the first entry of `firstTurns`; when
it is the first turn of the first group and the direction is -1, it wraps to
the last entry. -/
theorem c5_nextGroupTurn_wraps (ft : List Int) (t₁ t₂ : Int)
    (h1 : ft.indexOf? t₁ = some (ft.length - 1))
    (h2 : ft.indexOf? t₂ = some 0) :
    nextGroupTurn ft t₁ 1 = ft.head? ∧ nextGroupTurn ft t₂ (-1) = ft.getLast? := by
  have hne : ft ≠ [] := by
    intro e
    subst e
    simp at h1
  have hlen : 1 ≤ ft.length := List.length_pos.mpr hne
  constructor
  · unfold nextGroupTurn
    rw [h1]
    have ht : ((ft.length - 1 : Nat) : Int) + 1 = (ft.length : Int) := by omega
    simp only [ht]
    have htn : ((ft.length : Int)).toNat = ft.length := Int.toNat_natCast ft.length
    have hnone : ft[((ft.length : Int)).toNat]? = none := by
      rw [htn]
      exact List.getElem?_eq_none (Nat.le_refl _)
    simp [hnone]
  · unfold nextGroupTurn
    rw [h2]
    norm_num

/-- C6: when the current turn index is not a group-first index, the lookup
misses and the navigator anchors to the first entry of `firstTurns` for
direction +1 and to the last entry for direction -1. -/
theorem c6_nextGroupTurn_midGroup (ft : List Int) (t : Int)
    (h : ft.indexOf? t = none) :
    nextGroupTurn ft t 1 = ft.head? ∧ nextGroupTurn ft t (-1) = ft.getLast? := by
  unfold nextGroupTurn
  rw [h]
  exact ⟨rfl, rfl⟩

/-- C7: for every mode key missing from the configured modes list,
`Ctg.groups` fails with the invalid-mode error and produces no groups. -/
theorem c7_invalid_mode (modes : List (String × String)) (s : Settings) (mat : MatEnv)
    (turns : List Combatant) (mode : String)
    (h : (modes.map Prod.fst).contains mode = false) :
    ctgGroups modes s mat turns mode = .error .invalidMode := by
  unfold ctgGroups
  rw [h]
  rfl

/-- C10 counterexample: in mob mode a stored mob whose `selectedTokenIds`
list is empty produces an empty group, so not every returned group is
non-empty. -/
theorem c10_empty_group_counterexample :
    ctgGroups [("mob", "")] ⟨false, false, true⟩ ⟨true, [[]], []⟩ [] "mob" = .ok [[]] := by
  rfl

/-- Witness for C5 on the claim's concrete data. -/
theorem c5_nextGroupTurn_wraps_witness :
    nextGroupTurn [0, 5, 9] 9 1 = some 0 ∧ nextGroupTurn [0, 5, 9] 0 (-1) = some 9 := by
  have h := c5_nextGroupTurn_wraps [0, 5, 9] 9 0 (by decide) (by decide)
  simpa using h

/-- Witness for C6 on the claim's concrete data. -/
theorem c6_nextGroupTurn_midGroup_witness :
    nextGroupTurn [0, 5, 9] 3 1 = some 0 ∧ nextGroupTurn [0, 5, 9] 3 (-1) = some 9 := by
  have h := c6_nextGroupTurn_midGroup [0, 5, 9] 3 (by decide)
  simpa using h

/-- Witness for C7 at a concrete unknown mode key. -/
theorem c7_invalid_mode_witness :
    ctgGroups [("name", "name"), ("initiative", "initiative")] ⟨false, false, true⟩
      ⟨false, [], []⟩ [] "zzz" = .error .invalidMode :=
  c7_invalid_mode [("name", "name"), ("initiative", "initiative")] ⟨false, false, true⟩
    ⟨false, [], []⟩ [] "zzz" (by decide)

theorem flatten_perm_of_perm {α : Type} {l₁ l₂ : List (List α)} (h : l₁.Perm l₂) :
    l₁.flatten.Perm l₂.flatten := by
  induction h with
  | nil => exact List.Perm.refl _
  | cons x _ ih =>
    simp only [List.flatten_cons]
    exact List.Perm.append_left x ih
  | swap x y l =>
    simp only [List.flatten_cons]
    rw [← List.append_assoc, ← List.append_assoc]
    exact List.Perm.append_right _ List.perm_append_comm
  | trans _ _ ih1 ih2 => exact ih1.trans ih2

theorem filter_not_filter_perm {α : Type} (p : α → Bool) (l : List α) :
    (l.filter p ++ l.filter fun a => !p a).Perm l := by
  induction l with
  | nil => simp
  | cons a l ih =>
    by_cases hp : p a = true
    · rw [List.filter_cons_of_pos hp, List.filter_cons_of_neg (by simp [hp]), List.cons_append]
      exact List.Perm.cons a ih
    · have hp0 : p a = false := by
        cases h0 : p a
        · rfl
        · exact absurd h0 hp
      rw [List.filter_cons_of_neg (by simp [hp0]), List.filter_cons_of_pos (by simp [hp0])]
      exact List.perm_middle.trans (List.Perm.cons a ih)

theorem updateAList_flatten_perm (acc : List (String × List Combatant)) (k : String)
    (c : Combatant) :
    ((updateAList acc k c).map Prod.snd).flatten.Perm
      ((acc.map Prod.snd).flatten ++ [c]) := by
  induction acc with
  | nil => simp [updateAList]
  | cons kv rest ih =>
    obtain ⟨k0, l⟩ := kv
    have hdef : updateAList ((k0, l) :: rest) k c =
        if (k0 == k) = true then (k0, l ++ [c]) :: rest
        else (k0, l) :: updateAList rest k c := rfl
    rw [hdef]
    by_cases hk : (k0 == k) = true
    · rw [if_pos hk]
      simp only [List.map_cons, List.flatten_cons]
      rw [List.append_assoc, List.append_assoc]
      exact List.Perm.append_left l List.perm_append_comm
    · rw [if_neg hk]
      simp only [List.map_cons, List.flatten_cons]
      refine (List.Perm.append_left l ih).trans ?_
      rw [List.append_assoc]

theorem pathBucketsAux_flatten_perm (s : Settings) (turns : List Combatant) :
    ∀ acc : List (String × List Combatant),
      (((turns.foldl
          (fun acc cur =>
            if includedInGrouping s cur then updateAList acc (jsKeyString cur.val) cur else acc)
          acc).map Prod.snd).flatten).Perm
        ((acc.map Prod.snd).flatten ++ turns.filter (includedInGrouping s)) := by
  induction turns with
  | nil =>
    intro acc
    simp
  | cons c cs ih =>
    intro acc
    by_cases hc : includedInGrouping s c = true
    · rw [List.foldl_cons, if_pos hc, List.filter_cons_of_pos hc]
      have h1 := ih (updateAList acc (jsKeyString c.val) c)
      refine h1.trans ?_
      have h2 := List.Perm.append_right (cs.filter (includedInGrouping s))
        (updateAList_flatten_perm acc (jsKeyString c.val) c)
      refine h2.trans ?_
      rw [List.append_assoc, List.singleton_append]
    · rw [List.foldl_cons, if_neg hc, List.filter_cons_of_neg hc]
      exact ih acc

theorem objectValues_flatten_perm (al : List (String × List Combatant)) :
    (objectValues al).flatten.Perm ((al.map Prod.snd).flatten) := by
  unfold objectValues
  rw [List.map_append, List.flatten_append]
  have hA : (((al.filter fun kv => isArrayIndexKey kv.1).insertionSort
        (fun x y => digitsToNat x.1.toList ≤ digitsToNat y.1.toList)).map Prod.snd).flatten.Perm
      (((al.filter fun kv => isArrayIndexKey kv.1).map Prod.snd).flatten) :=
    flatten_perm_of_perm (List.Perm.map Prod.snd (List.perm_insertionSort _ _))
  refine (hA.append (List.Perm.refl _)).trans ?_
  rw [← List.flatten_append, ← List.map_append]
  exact flatten_perm_of_perm (List.Perm.map Prod.snd (filter_not_filter_perm _ al))

theorem flatten_map_insertionSort_perm (r : Combatant → Combatant → Prop) [DecidableRel r]
    (gs : List (List Combatant)) :
    ((gs.map (List.insertionSort r)).flatten).Perm gs.flatten := by
  induction gs with
  | nil => simp
  | cons g gs ih =>
    simp only [List.map_cons, List.flatten_cons]
    exact (List.perm_insertionSort r g).append ih

/-- C3: in path-based grouping mode, the groups returned by `Ctg.groups`
partition the non-skipped combatants: the concatenation of all groups is a
permutation of the combatants passing the grouping filter, so no non-skipped
combatant is omitted and none appears twice. -/
theorem c3_path_partition (modes : List (String × String)) (s : Settings) (mat : MatEnv)
    (turns : List Combatant) (mode : String)
    (hvalid : (modes.map Prod.fst).contains mode = true)
    (hpath : (mode == "mob" && mat.active) = false) :
    ∃ gs, ctgGroups modes s mat turns mode = .ok gs
      ∧ gs.flatten.Perm (turns.filter (includedInGrouping s)) := by
  have hgs : ctgGroups modes s mat turns mode =
      .ok (((pathGroups s turns).map
          (List.insertionSort (fun a b => sortCombatants s turns a b ≤ 0))).insertionSort
        (fun ga gb => sortGroupHeads s turns ga gb ≤ 0)) := by
    unfold ctgGroups
    rw [hvalid, hpath]
    rfl
  refine ⟨_, hgs, ?_⟩
  refine (flatten_perm_of_perm (List.perm_insertionSort _ _)).trans ?_
  refine (flatten_map_insertionSort_perm _ _).trans ?_
  unfold pathGroups
  refine (objectValues_flatten_perm _).trans ?_
  have h := pathBucketsAux_flatten_perm s turns []
  simpa [pathBuckets] using h

/-- Witness for C3 at a concrete one-combatant list in a path-based mode. -/
theorem c3_path_partition_witness :
    ∃ gs, ctgGroups [("name", "name")] ⟨false, false, true⟩ ⟨false, [], []⟩
        [⟨"A", none, true, false, false, .str "x"⟩] "name" = .ok gs
      ∧ gs.flatten.Perm
          ([⟨"A", none, true, false, false, .str "x"⟩].filter
            (includedInGrouping ⟨false, false, true⟩)) :=
  c3_path_partition [("name", "name")] ⟨false, false, true⟩ ⟨false, [], []⟩
    [⟨"A", none, true, false, false, .str "x"⟩] "name" (by decide) (by decide)

theorem updateAList_snd_ne_nil (acc : List (String × List Combatant)) (k : String)
    (c : Combatant) (h : ∀ kv ∈ acc, kv.2 ≠ []) :
    ∀ kv ∈ updateAList acc k c, kv.2 ≠ [] := by
  induction acc with
  | nil =>
    intro kv hkv
    simp only [updateAList, List.mem_singleton] at hkv
    subst hkv
    simp
  | cons kv0 rest ih =>
    obtain ⟨k0, l⟩ := kv0
    intro kv hkv
    by_cases hk : (k0 == k) = true
    · simp only [updateAList, hk, if_pos, List.mem_cons] at hkv
      rcases hkv with rfl | hkv
      · simp
      · exact h kv (List.mem_cons_of_mem _ hkv)
    · simp only [updateAList, hk, Bool.false_eq_true, if_neg, not_false_eq_true,
        List.mem_cons] at hkv
      rcases hkv with rfl | hkv
      · exact h (k0, l) (List.mem_cons_self _ _)
      · exact ih (fun kv2 hkv2 => h kv2 (List.mem_cons_of_mem _ hkv2)) kv hkv

theorem pathBuckets_snd_ne_nil (s : Settings) (turns : List Combatant) :
    ∀ kv ∈ pathBuckets s turns, kv.2 ≠ [] := by
  suffices h : ∀ acc : List (String × List Combatant), (∀ kv ∈ acc, kv.2 ≠ []) →
      ∀ kv ∈ turns.foldl
        (fun acc cur =>
          if includedInGrouping s cur then updateAList acc (jsKeyString cur.val) cur else acc)
        acc, kv.2 ≠ [] by
    exact h [] (by simp)
  induction turns with
  | nil =>
    intro acc ha
    simpa using ha
  | cons c cs ih =>
    intro acc ha
    simp only [List.foldl_cons]
    by_cases hc : includedInGrouping s c = true
    · rw [if_pos hc]
      exact ih _ (updateAList_snd_ne_nil _ _ _ ha)
    · rw [if_neg hc]
      exact ih _ ha

theorem objectValues_ne_nil (al : List (String × List Combatant))
    (h : ∀ kv ∈ al, kv.2 ≠ []) : ∀ g ∈ objectValues al, g ≠ [] := by
  intro g hg
  unfold objectValues at hg
  rw [List.map_append, List.mem_append] at hg
  rcases hg with hg | hg
  · rw [List.mem_map] at hg
    obtain ⟨kv, hkv, rfl⟩ := hg
    have hkv2 : kv ∈ al.filter fun kv => isArrayIndexKey kv.1 :=
      ((List.perm_insertionSort _ _).mem_iff).mp hkv
    exact h kv (List.mem_of_mem_filter hkv2)
  · rw [List.mem_map] at hg
    obtain ⟨kv, hkv, rfl⟩ := hg
    exact h kv (List.mem_of_mem_filter hkv)

/-- C10 (amended): in path-based grouping mode every group returned by
`Ctg.groups` is non-empty, so each has a first member usable as its
representative. (In mob mode a group can be empty; see the
counterexample.) -/
theorem c10_path_groups_nonempty (modes : List (String × String)) (s : Settings)
    (mat : MatEnv) (turns : List Combatant) (mode : String)
    (hvalid : (modes.map Prod.fst).contains mode = true)
    (hpath : (mode == "mob" && mat.active) = false)
    (gs : List (List Combatant)) (hgs : ctgGroups modes s mat turns mode = .ok gs) :
    ∀ g ∈ gs, g ≠ [] := by
  have hgs2 : ctgGroups modes s mat turns mode =
      .ok (((pathGroups s turns).map
          (List.insertionSort (fun a b => sortCombatants s turns a b ≤ 0))).insertionSort
        (fun ga gb => sortGroupHeads s turns ga gb ≤ 0)) := by
    unfold ctgGroups
    rw [hvalid, hpath]
    rfl
  rw [hgs] at hgs2
  have hgseq := Except.ok.inj hgs2
  subst hgseq
  intro g hg
  have hg2 : g ∈ (pathGroups s turns).map
      (List.insertionSort (fun a b => sortCombatants s turns a b ≤ 0)) :=
    ((List.perm_insertionSort _ _).mem_iff).mp hg
  rw [List.mem_map] at hg2
  obtain ⟨h0, hh0, rfl⟩ := hg2
  have hne := objectValues_ne_nil _ (pathBuckets_snd_ne_nil s turns) h0 hh0
  intro e
  have hp := List.perm_insertionSort
    (fun a b => sortCombatants s turns a b ≤ 0) h0
  rw [e] at hp
  exact hne hp.symm.eq_nil

/-- Witness for the amended C10: on a concrete one-combatant list the single
returned group is non-empty. -/
theorem c10_path_groups_nonempty_witness :
    ([⟨"A", none, true, false, false, .str "x"⟩] : List Combatant) ≠ [] :=
  c10_path_groups_nonempty [("name", "name")] ⟨false, false, true⟩ ⟨false, [], []⟩
    [⟨"A", none, true, false, false, .str "x"⟩] "name" (by decide) (by decide)
    [[⟨"A", none, true, false, false, .str "x"⟩]] (by rfl)
    [⟨"A", none, true, false, false, .str "x"⟩] (by simp)

end CtgSpec
